import Mathlib

/-!
Verification of the workshop-management backend (points, grading,
participation workflow) against its natural-language specification.

The Lean definitions below are a shallow embedding of the Python source:

* `src/backend/app/store/exam_store.py` (exam grading),
* `src/backend/app/store/points_store.py` (points and leaderboard),
* `src/backend/app/store/participant_store.py` and
  `src/backend/app/routes/participant_routes.py` (participation workflow),
* `src/backend/app/routes/challenge_routes.py` (submission review),
* `src/backend/app/routes/exam_routes.py` (submit-attempt flow),
* `src/backend/app/services/registration_service.py` (legacy registration).

SQL tables are modelled as Lean lists of rows; `SELECT ... WHERE` is
`List.find?` / `List.filter`, `UPDATE ... WHERE` is `List.map` with a
conditional rewrite, `INSERT` appends.  MySQL `CURRENT_TIMESTAMP` is an
explicit `now : Nat` parameter, and generated UUIDs are explicit `String`
parameters.  Python `int` columns are `Int` (point totals can be set to
arbitrary JSON integers by the review route) while grading quantities,
which come from non-negative point columns, are `Nat`.
-/

namespace KiroWorkshop

/-! ### String helpers

Python `str.strip().lower()` on the answer strings the grader compares
(`submit_exam_attempt`, exam_store.py line 198).  The embedding models
strings over the ASCII plane: `isPySpace` is exactly the set of ASCII
code points Python's `str.strip` removes (0x09-0x0d, 0x1c-0x1f, 0x20),
and `Char.toLower` coincides with `str.lower` there.  Python additionally
strips and lowercases non-ASCII Unicode code points (e.g. U+00A0,
U+2028, `İ`), which this model does not cover.
-/

def isPySpace (c : Char) : Bool :=
  c == ' ' || c == '\t' || c == '\n' || c == '\r' || c == '\x0b' || c == '\x0c' ||
  c == '\x1c' || c == '\x1d' || c == '\x1e' || c == '\x1f'

/-- `s.strip()` on the character list: drop leading and trailing whitespace. -/
def stripChars (cs : List Char) : List Char :=
  ((cs.dropWhile isPySpace).reverse.dropWhile isPySpace).reverse

/-- `str(x).strip().lower()` as a character list. -/
def pyNorm (s : String) : List Char :=
  (stripChars s.data).map Char.toLower

/-! ### Exam grading (`exam_store.submit_exam_attempt`) -/

structure QuestionRow where
  id : String
  exam_id : String
  correct_answer : String
  points : Nat
  deriving DecidableEq, Repr

structure ExamRow where
  id : String
  workshop_id : String
  passing_score : Nat
  points : Nat
  deriving DecidableEq, Repr

/-- `answers.get(question['id'], '')`: the submitted answers dict, as an
association list with default `""`. -/
def lookupAnswer (answers : List (String × String)) (qid : String) : String :=
  match answers.find? (fun a => a.1 == qid) with
  | some a => a.2
  | none => ""

/-- The grader's comparison of one question (exam_store.py line 198):
trimmed, lowercased submitted answer against trimmed, lowercased
`correct_answer`. -/
def answerMatches (answers : List (String × String)) (q : QuestionRow) : Bool :=
  pyNorm (lookupAnswer answers q.id) == pyNorm q.correct_answer

/-- The grading loop: `earned_points` accumulated over the exam's
questions. -/
def earnedPoints (qs : List QuestionRow) (answers : List (String × String)) : Nat :=
  qs.foldl (fun acc q => if answerMatches answers q then acc + q.points else acc) 0

/-- `total_possible = sum(q['points'] for q in questions)`. -/
def totalPossible (qs : List QuestionRow) : Nat :=
  (qs.map QuestionRow.points).sum

structure GradeResult where
  score : Nat
  passed : Bool
  points_earned : Nat
  deriving DecidableEq, Repr

/-! #### IEEE-754 double arithmetic of the score computation

`submit_exam_attempt` computes `int(earned_points / total_possible * 100)`
(exam_store.py line 201) through Python floats: `int / int` is the
correctly rounded double of the exact quotient, `* 100` is a correctly
rounded double product (100 is exactly representable), and `int(...)`
truncates toward zero.  A non-negative double is a value `n * 2^k` with
`n < 2^53`; the functions below model rounding to nearest, ties to even,
with 53-bit significands and unbounded exponent range (no overflow, since
`0 ≤ earned ≤ total` keeps every value in `[0, 100]`, and no subnormals,
which would need a total above `2^1022`).  `int(0.29 * 100)` is 28, not
29, and this model reproduces that. -/

/-- `⌊log2 n⌋` for positive `n` (0 for `n ≤ 1`), by structural recursion
on a fuel bound (`n` halvings always suffice). -/
def natLog2Aux : Nat → Nat → Nat
  | 0, _ => 0
  | fuel+1, n => if 2 ≤ n then natLog2Aux fuel (n / 2) + 1 else 0

def natLog2 (n : Nat) : Nat := natLog2Aux n n

/-- Decides `2^s ≤ a / b` by cross-multiplication. -/
def pow2LE (s : Int) (a b : Nat) : Bool :=
  if 0 ≤ s then b * 2 ^ s.toNat ≤ a else b ≤ a * 2 ^ (-s).toNat

/-- `⌊log2 (a / b)⌋` for positive `a`, `b`: the integer log2 difference,
adjusted to the unique `s` with `2^s ≤ a/b < 2^(s+1)`. -/
def floorLog2 (a b : Nat) : Int :=
  let s0 : Int := (natLog2 a : Int) - (natLog2 b : Int)
  if pow2LE (s0 + 1) a b then s0 + 1
  else if pow2LE s0 a b then s0
  else s0 - 1

/-- The correctly rounded double of `a / b` (for `b ≠ 0`), as a value
`n * 2^k`: scale the quotient into `[2^52, 2^53)` and round to the
nearest integer, ties to even. -/
def pyFloatDiv (a b : Nat) : Nat × Int :=
  if a = 0 then (0, 0)
  else
    let k : Int := floorLog2 a b - 52
    let p := if k ≤ 0 then a * 2 ^ (-k).toNat else a
    let q := if k ≤ 0 then b else b * 2 ^ k.toNat
    let n0 := p / q
    let r := p % q
    let n := if q < 2 * r then n0 + 1
      else if 2 * r < q then n0
      else if n0 % 2 = 0 then n0 else n0 + 1
    (n, k)

/-- Round an exact product `m * 2^k` (integer `m`) to the nearest double:
keep at most 53 significand bits, ties to even. -/
def pyFloatRound (m : Nat) (k : Int) : Nat × Int :=
  if m = 0 then (0, 0)
  else
    let l := natLog2 m
    if l ≤ 52 then (m, k)
    else
      let sh := l - 52
      let n0 := m / 2 ^ sh
      let r := m % 2 ^ sh
      let half := 2 ^ (sh - 1)
      let n := if half < r then n0 + 1
        else if r < half then n0
        else if n0 % 2 = 0 then n0 else n0 + 1
      (n, k + sh)

/-- Python `int(x)` on the non-negative double `n * 2^k`: truncation
toward zero. -/
def pyIntOfFloat (n : Nat) (k : Int) : Nat :=
  if 0 ≤ k then n * 2 ^ k.toNat else n / 2 ^ (-k).toNat

/-- `int(earned_points / total_possible * 100)` as Python evaluates it
(exam_store.py line 201): correctly rounded double division, correctly
rounded double multiplication by 100, truncation.  Checked against
CPython on every pair with `total ≤ 300` and `total ∈ [999, 1024]` and on
random six-digit pairs; e.g. `pyScore 29 100 = 28` while the exact floor
is 29. -/
def pyScore (earned total : Nat) : Nat :=
  let f1 := pyFloatDiv earned total
  let f2 := pyFloatRound (f1.1 * 100) f1.2
  pyIntOfFloat f2.1 f2.2

/-- The score/pass/points computation of `submit_exam_attempt`
(exam_store.py lines 193-203), with the score computed through the
double-precision pipeline above, as the source does. -/
def gradeAttempt (passing_score max_points : Nat) (qs : List QuestionRow)
    (answers : List (String × String)) : GradeResult :=
  let total := totalPossible qs
  let earned := earnedPoints qs answers
  let score := if total > 0 then pyScore earned total else 0
  let passed : Bool := score ≥ passing_score
  { score := score, passed := passed,
    points_earned := if passed then max_points else 0 }

/-! ### Database rows for the points / exam / review state -/

structure UserPointsRow where
  user_id : String
  total_points : Int
  lessons_completed : Int
  challenges_completed : Int
  exams_passed : Int
  current_rank : Int
  previous_rank : Int
  last_updated : Nat
  deriving DecidableEq, Repr

structure ProgressRow where
  id : String
  user_id : String
  lesson_id : String
  completed : Bool
  completed_at : Option Nat
  points_earned : Int
  deriving DecidableEq, Repr

structure AttemptRow where
  id : String
  user_id : String
  exam_id : String
  answers : List (String × String)
  score : Nat
  points_earned : Nat
  passed : Bool
  submitted_at : Option Nat
  deriving DecidableEq, Repr

structure SubmissionRow where
  id : String
  user_id : String
  challenge_id : String
  status : String
  points_earned : Int
  feedback : Option String
  reviewed_by : Option String
  reviewed_at : Option Nat
  deriving DecidableEq, Repr

structure HistoryRow where
  user_id : String
  rank_position : Int
  total_points : Int
  deriving DecidableEq, Repr

structure DB where
  user_progress : List ProgressRow
  user_points : List UserPointsRow
  exam_attempts : List AttemptRow
  submissions : List SubmissionRow
  exams : List ExamRow
  exam_questions : List QuestionRow
  history : List HistoryRow
  deriving DecidableEq, Repr

/-- `get_user_points` (points_store.py lines 23-32): the user's
`user_points` row, `None` when absent. -/
def get_user_points (u : String) (db : DB) : Option UserPointsRow :=
  db.user_points.find? (fun r => r.user_id == u)

/-! ### Points store (`points_store.py`)

The three `INSERT ... ON DUPLICATE KEY UPDATE` statements on `user_points`
(primary key `user_id`).  The schema's `last_updated TIMESTAMP ... ON
UPDATE CURRENT_TIMESTAMP` column is maintained explicitly through `now`.
-/

def upsertLessonPoints (u : String) (p : Int) (now : Nat)
    (rows : List UserPointsRow) : List UserPointsRow :=
  if rows.any (fun r => r.user_id == u) then
    rows.map (fun r =>
      if r.user_id == u then
        { r with total_points := r.total_points + p,
                 lessons_completed := r.lessons_completed + 1,
                 last_updated := now }
      else r)
  else
    rows ++ [{ user_id := u, total_points := p, lessons_completed := 1,
               challenges_completed := 0, exams_passed := 0,
               current_rank := 0, previous_rank := 0, last_updated := now }]

def upsertChallengePoints (u : String) (p : Int) (now : Nat)
    (rows : List UserPointsRow) : List UserPointsRow :=
  if rows.any (fun r => r.user_id == u) then
    rows.map (fun r =>
      if r.user_id == u then
        { r with total_points := r.total_points + p,
                 challenges_completed := r.challenges_completed + 1,
                 last_updated := now }
      else r)
  else
    rows ++ [{ user_id := u, total_points := p, lessons_completed := 0,
               challenges_completed := 1, exams_passed := 0,
               current_rank := 0, previous_rank := 0, last_updated := now }]

def upsertExamPoints (u : String) (p : Int) (now : Nat)
    (rows : List UserPointsRow) : List UserPointsRow :=
  if rows.any (fun r => r.user_id == u) then
    rows.map (fun r =>
      if r.user_id == u then
        { r with total_points := r.total_points + p,
                 exams_passed := r.exams_passed + 1,
                 last_updated := now }
      else r)
  else
    rows ++ [{ user_id := u, total_points := p, lessons_completed := 0,
               challenges_completed := 0, exams_passed := 1,
               current_rank := 0, previous_rank := 0, last_updated := now }]

/-- `add_lesson_points` (points_store.py lines 35-76): look for an existing
`user_progress` row for (user, lesson); if it is already completed return
the current totals unchanged, otherwise mark completion (updating the
found row by its id, or inserting a fresh row with the pre-generated id
`newId`) and upsert the points. -/
def add_lesson_points (u l : String) (p : Int) (newId : String) (now : Nat)
    (db : DB) : DB × Option UserPointsRow :=
  match db.user_progress.find? (fun r => r.user_id == u && r.lesson_id == l) with
  | some existing =>
    if existing.completed then
      (db, get_user_points u db)
    else
      let db1 := { db with user_progress := db.user_progress.map (fun r : ProgressRow =>
        if r.id == existing.id then
          { r with completed := true, completed_at := some now, points_earned := p }
        else r) }
      let db2 := { db1 with user_points := upsertLessonPoints u p now db1.user_points }
      (db2, get_user_points u db2)
  | none =>
      let db1 := { db with user_progress := db.user_progress ++
        [({ id := newId, user_id := u, lesson_id := l, completed := true,
            completed_at := some now, points_earned := p } : ProgressRow)] }
      let db2 := { db1 with user_points := upsertLessonPoints u p now db1.user_points }
      (db2, get_user_points u db2)

/-- `add_challenge_points` (points_store.py lines 79-91): unconditional
upsert; the `challenge_id` argument is accepted but unused, as in the
source. -/
def add_challenge_points (u _challenge_id : String) (p : Int) (now : Nat)
    (db : DB) : DB × Option UserPointsRow :=
  let db2 := { db with user_points := upsertChallengePoints u p now db.user_points }
  (db2, get_user_points u db2)

/-- `SELECT COUNT(*) FROM exam_attempts WHERE user_id = u AND exam_id = e
AND passed = TRUE` (points_store.py lines 98-101). -/
def passedCount (u e : String) (db : DB) : Nat :=
  (db.exam_attempts.filter (fun a => a.user_id == u && a.exam_id == e && a.passed)).length

/-- `add_exam_points` (points_store.py lines 94-117): skip the award when
the count of recorded passed attempts exceeds 1, otherwise upsert. -/
def add_exam_points (u e : String) (p : Int) (now : Nat)
    (db : DB) : DB × Option UserPointsRow :=
  if passedCount u e db > 1 then
    (db, get_user_points u db)
  else
    let db2 := { db with user_points := upsertExamPoints u p now db.user_points }
    (db2, get_user_points u db2)

/-! ### Leaderboard recompute (`points_store.update_rankings`) -/

/-- The `ORDER BY total_points DESC, last_updated ASC` ordering used by the
`ROW_NUMBER() OVER (...)` window (points_store.py line 140). -/
def rankOrder (a b : UserPointsRow) : Prop :=
  b.total_points < a.total_points ∨
    (a.total_points = b.total_points ∧ a.last_updated ≤ b.last_updated)

instance : DecidableRel rankOrder := fun a b => by
  unfold rankOrder; infer_instance

/-- One row of the window query: user, snapshotted points, computed rank. -/
structure RankEntry where
  user_id : String
  total_points : Int
  new_rank : Int
  deriving DecidableEq, Repr

/-- The ranking query (points_store.py lines 138-144): rows with
`total_points > 0`, sorted, with `ROW_NUMBER()` starting at 1. -/
def rankEntries (rows : List UserPointsRow) : List RankEntry :=
  (((rows.filter (fun r => 0 < r.total_points)).insertionSort rankOrder).enum).map
    (fun p => { user_id := p.2.user_id, total_points := p.2.total_points,
                new_rank := (p.1 : Int) + 1 })

/-- `SELECT current_rank FROM user_points WHERE user_id = u`, defaulting to
0 when no row is found (points_store.py lines 152-156). -/
def storedRank (rows : List UserPointsRow) (u : String) : Int :=
  match rows.find? (fun r => r.user_id == u) with
  | some r => r.current_rank
  | none => 0

/-- The per-user `UPDATE user_points SET previous_rank = current_rank,
current_rank = %s WHERE user_id = %s` (points_store.py lines 159-163). -/
def shiftRank (e : RankEntry) (r : UserPointsRow) : UserPointsRow :=
  if r.user_id == e.user_id then
    { r with previous_rank := r.current_rank, current_rank := e.new_rank }
  else r

/-- The loop body of `update_rankings` (points_store.py lines 146-172):
for each ranked user, read the stored rank, shift the rank columns, and
append a `leaderboard_history` row when the rank changed. -/
def processRankings : List RankEntry → List UserPointsRow → List HistoryRow →
    List UserPointsRow × List HistoryRow
  | [], rows, hist => (rows, hist)
  | e :: rest, rows, hist =>
      let cur := storedRank rows e.user_id
      let rows2 := rows.map (shiftRank e)
      let hist2 := if cur ≠ e.new_rank then
          hist ++ [{ user_id := e.user_id, rank_position := e.new_rank,
                     total_points := e.total_points }]
        else hist
      processRankings rest rows2 hist2

/-- `update_rankings` (points_store.py lines 134-172). -/
def update_rankings (db : DB) : DB :=
  let res := processRankings (rankEntries db.user_points) db.user_points db.history
  { db with user_points := res.1, history := res.2 }

/-- `get_user_rank_change` returns a dict whose key set depends on the
branch; the two optional fields model the keys present only when a
`user_points` row exists. -/
structure RankChangeInfo where
  rank : Int
  previous_rank : Option Int
  change : Int
  direction : String
  total_points : Option Int
  deriving DecidableEq, Repr

/-- `get_user_rank_change` (points_store.py lines 175-204). -/
def get_user_rank_change (u : String) (db : DB) : RankChangeInfo :=
  match get_user_points u db with
  | none =>
      { rank := 0, previous_rank := none, change := 0, direction := "same",
        total_points := none }
  | some p =>
      if p.previous_rank = 0 then
        { rank := p.current_rank, previous_rank := some p.previous_rank,
          change := 0, direction := "new", total_points := some p.total_points }
      else if p.current_rank < p.previous_rank then
        { rank := p.current_rank, previous_rank := some p.previous_rank,
          change := p.previous_rank - p.current_rank, direction := "up",
          total_points := some p.total_points }
      else if p.previous_rank < p.current_rank then
        { rank := p.current_rank, previous_rank := some p.previous_rank,
          change := p.current_rank - p.previous_rank, direction := "down",
          total_points := some p.total_points }
      else
        { rank := p.current_rank, previous_rank := some p.previous_rank,
          change := 0, direction := "same", total_points := some p.total_points }

/-! ### Exam submission (`exam_store.submit_exam_attempt` and the
`POST /attempts/<id>/submit` route) -/

/-- `submit_exam_attempt` (exam_store.py lines 165-219): join the attempt
with its exam, grade the exam's questions against the submitted answers,
and write the result back onto the attempt row.  `none` models the
`ValueError` raised when the attempt (or its joined exam) is missing; the
returned row is the updated attempt, as re-fetched by primary key. -/
def submit_exam_attempt (attempt_id : String) (answers : List (String × String))
    (now : Nat) (db : DB) : Option (DB × AttemptRow) :=
  match db.exam_attempts.find? (fun a => a.id == attempt_id) with
  | none => none
  | some att =>
    match db.exams.find? (fun e => e.id == att.exam_id) with
    | none => none
    | some exam =>
      let qs := db.exam_questions.filter (fun q => q.exam_id == att.exam_id)
      let g := gradeAttempt exam.passing_score exam.points qs answers
      let db2 := { db with exam_attempts := db.exam_attempts.map (fun a : AttemptRow =>
        if a.id == attempt_id then
          { a with answers := answers, score := g.score,
                   points_earned := g.points_earned, passed := g.passed,
                   submitted_at := some now }
        else a) }
      some (db2, { att with answers := answers, score := g.score,
                            points_earned := g.points_earned, passed := g.passed,
                            submitted_at := some now })

inductive SubmitResp where
  | badRequest
  | serverError
  | ok (att : AttemptRow)
  deriving DecidableEq, Repr

/-- The `submit_attempt` route (exam_routes.py lines 181-200): reject empty
answers, submit the attempt, then — if the stored attempt passed with
positive points — call `add_exam_points` followed by `update_rankings`.
Note the attempt row is already recorded as passed before the award runs. -/
def submit_attempt_route (uid attempt_id : String)
    (answers : List (String × String)) (now : Nat) (db : DB) : DB × SubmitResp :=
  if answers.isEmpty then (db, .badRequest)
  else
    match submit_exam_attempt attempt_id answers now db with
    | none => (db, .serverError)
    | some (db1, att) =>
      if att.passed ∧ 0 < att.points_earned then
        let db2 := (add_exam_points uid att.exam_id (att.points_earned : Int) now db1).1
        (update_rankings db2, .ok att)
      else (db1, .ok att)

/-! ### Challenge submission review (`challenge_routes.review_submission`) -/

/-- `challenge_store.review_submission` (challenge_store.py lines 143-155):
update the submission row and re-fetch it. -/
def review_submission_store (sid reviewer status : String) (pe : Int)
    (fb : Option String) (now : Nat) (db : DB) : DB × Option SubmissionRow :=
  let subs := db.submissions.map (fun s : SubmissionRow =>
    if s.id == sid then
      { s with status := status, points_earned := pe, feedback := fb,
               reviewed_by := some reviewer, reviewed_at := some now }
    else s)
  ({ db with submissions := subs }, subs.find? (fun s => s.id == sid))

inductive ReviewResp where
  | badStatus
  | serverError
  | ok (sub : Option SubmissionRow)
  deriving DecidableEq, Repr

/-- The `review_submission` route (challenge_routes.py lines 164-187):
validate the status, store the review, and award challenge points plus a
rankings recompute only when the review passed with positive points.  The
`serverError` branch models the `TypeError` raised when the submission id
matches no row (`submission['user_id']` on `None`). -/
def review_submission_route (reviewer sid status : String) (pe : Int)
    (fb : Option String) (now : Nat) (db : DB) : DB × ReviewResp :=
  if status == "passed" || status == "failed" then
    let res := review_submission_store sid reviewer status pe fb now db
    if status = "passed" ∧ 0 < pe then
      match res.2 with
      | some sub =>
          let db2 := (add_challenge_points sub.user_id sub.challenge_id pe now res.1).1
          (update_rankings db2, .ok (some sub))
      | none => (res.1, .serverError)
    else (res.1, .ok res.2)
  else (db, .badStatus)

/-! ### Participation workflow (`participant_store.py`,
`participant_routes.py`) -/

structure WorkshopRow where
  id : String
  owner_id : Option String
  deriving DecidableEq, Repr

structure ParticipantRow where
  id : String
  workshop_id : String
  user_id : String
  status : String
  requested_at : Nat
  approved_at : Option Nat
  approved_by : Option String
  deriving DecidableEq, Repr

/-- Python truthiness of the `approved_by: Optional[str]` argument. -/
def truthyOpt : Option String → Bool
  | none => false
  | some s => !(s == "")

/-- `ParticipantStore.update_participant_status` (participant_store.py
lines 206-238): stamp `approved_by`/`approved_at` only when an approver is
given and the new status is joined or rejected; otherwise update the
status column alone. -/
def update_participant_status_store (pid status : String)
    (approved_by : Option String) (now : Nat)
    (parts : List ParticipantRow) : List ParticipantRow :=
  if truthyOpt approved_by && (status == "joined" || status == "rejected") then
    parts.map (fun p : ParticipantRow =>
      if p.id == pid then
        { p with status := status, approved_by := approved_by,
                 approved_at := some now }
      else p)
  else
    parts.map (fun p : ParticipantRow =>
      if p.id == pid then { p with status := status } else p)

inductive PatchResp where
  | workshopNotFound
  | forbidden
  | participantNotFound
  | wrongWorkshop
  | missingStatus
  | invalidStatus
  | ok
  deriving DecidableEq, Repr

/-- `valid_statuses` of the PATCH route (participant_routes.py line 276). -/
def valid_statuses : List String := ["pending", "joined", "rejected", "waitlisted"]

/-- The `PATCH .../participants/<id>` route (participant_routes.py lines
187-291): ownership and consistency checks, status validation against
`valid_statuses`, then the store update with the approver passed only for
joined/rejected. -/
def update_participant_status_route (uid wid pid : String)
    (body : Option String) (now : Nat) (ws : List WorkshopRow)
    (parts : List ParticipantRow) : List ParticipantRow × PatchResp :=
  match ws.find? (fun w => w.id == wid) with
  | none => (parts, .workshopNotFound)
  | some w =>
    if !(w.owner_id == some uid) then (parts, .forbidden)
    else
      match parts.find? (fun p => p.id == pid) with
      | none => (parts, .participantNotFound)
      | some p =>
        if !(p.workshop_id == wid) then (parts, .wrongWorkshop)
        else
          match body with
          | none => (parts, .missingStatus)
          | some st =>
            if valid_statuses.contains st then
              (update_participant_status_store pid st
                 (if st == "joined" || st == "rejected" then some uid else none)
                 now parts,
               .ok)
            else (parts, .invalidStatus)

/-- The fresh participation row inserted by `create_participant`
(participant_store.py lines 40-64); `requested_at` defaults to now,
`approved_at`/`approved_by` to NULL, status to the caller's value
(`'pending'` from the join route). -/
def newParticipant (pid wid uid : String) (now : Nat) : ParticipantRow :=
  { id := pid, workshop_id := wid, user_id := uid, status := "pending",
    requested_at := now, approved_at := none, approved_by := none }

inductive CreateResult where
  | dup
  | ok (parts : List ParticipantRow) (p : ParticipantRow)
  deriving DecidableEq, Repr

/-- `ParticipantStore.create_participant` (participant_store.py lines
18-70): the INSERT hits the `unique_workshop_user` constraint whenever a
row for (workshop, user) already exists, which the store surfaces as a
`ValueError` (`dup`); otherwise the row is inserted and returned. -/
def create_participant (wid uid pid : String) (now : Nat)
    (parts : List ParticipantRow) : CreateResult :=
  if parts.any (fun q => q.workshop_id == wid && q.user_id == uid) then .dup
  else .ok (parts ++ [newParticipant pid wid uid now]) (newParticipant pid wid uid now)

inductive JoinResp where
  | workshopNotFound
  | ownerCannotJoin
  | alreadyJoined
  | dupConflict
  | created
  deriving DecidableEq, Repr

/-- The `POST /workshops/<id>/join` route (participant_routes.py lines
18-101): 404 when the workshop is missing, 400 for the owner, 409 when the
pre-read finds an existing participation (`alreadyJoined`), and 409 when
the insert itself hits the uniqueness constraint (`dupConflict`, the
`ValueError` handler). -/
def join_workshop_route (uid wid pid : String) (now : Nat)
    (ws : List WorkshopRow) (parts : List ParticipantRow) :
    List ParticipantRow × JoinResp :=
  match ws.find? (fun w => w.id == wid) with
  | none => (parts, .workshopNotFound)
  | some w =>
    if w.owner_id == some uid then (parts, .ownerCannotJoin)
    else
      match parts.find? (fun q => q.workshop_id == wid && q.user_id == uid) with
      | some _ => (parts, .alreadyJoined)
      | none =>
        match create_participant wid uid pid now parts with
        | .dup => (parts, .dupConflict)
        | .ok parts2 _ => (parts2, .created)

/-! ### Registration service (`src/backend/app/services/registration_service.py`)
with the email validator of `src/backend/app/validators.py`. -/

/-- Character class `[a-zA-Z0-9._%+-]` of the email regex. -/
def isLocalChar (c : Char) : Bool :=
  c.isAlphanum || c == '.' || c == '_' || c == '%' || c == '+' || c == '-'

/-- Characters allowed inside one dot-separated domain segment
(`[a-zA-Z0-9.-]` minus the separating dots). -/
def isDomainSegChar (c : Char) : Bool :=
  c.isAlphanum || c == '-'

/-- Split a character list on a separator character. -/
def splitOnChar (sep : Char) : List Char → List (List Char)
  | [] => [[]]
  | c :: rest =>
    let r := splitOnChar sep rest
    if c == sep then [] :: r
    else
      match r with
      | h :: t => (c :: h) :: t
      | [] => [[c]]

/-- The part of `^...@([a-zA-Z0-9.-]+\.[a-zA-Z]{2,})$` after the `@`: the
text after the last dot is the all-alphabetic TLD of length ≥ 2, and the
text before it is a non-empty run of domain characters. -/
def domainMatches (rest : List Char) : Bool :=
  match (splitOnChar '.' rest).reverse with
  | tld :: seg :: segs =>
      2 ≤ tld.length && tld.all Char.isAlpha &&
      (seg :: segs).all (fun s => s.all isDomainSegChar) &&
      (!segs.isEmpty || !seg.isEmpty)
  | _ => false

/-- `validate_email_format` (validators.py lines 233-255): full match of
`^[a-zA-Z0-9._%+-]+@[a-zA-Z0-9.-]+\.[a-zA-Z]{2,}$`. -/
def validate_email_format (email : String) : Bool :=
  match splitOnChar '@' email.data with
  | [localPart, rest] =>
      !localPart.isEmpty && localPart.all isLocalChar && domainMatches rest
  | _ => false

structure RegWorkshop where
  id : String
  signup_enabled : Bool
  status : String
  capacity : Int
  registration_count : Int
  deriving DecidableEq, Repr

structure Registration where
  id : String
  workshop_id : String
  participant_name : String
  participant_email : String
  registered_at : Nat
  deriving DecidableEq, Repr

structure RegStore where
  workshops : List RegWorkshop
  registrations : List Registration
  deriving DecidableEq, Repr

inductive RegOutcome where
  | workshopNotFound
  | invalidEmail
  | signupsDisabled
  | closedOngoing
  | closedCompleted
  | full
  | registered
  deriving DecidableEq, Repr

/-- `WorkshopStore.update_workshop` (file-based store): replace the first
workshop with a matching id. -/
def replace_workshop : List RegWorkshop → RegWorkshop → List RegWorkshop
  | [], _ => []
  | x :: xs, w => if x.id == w.id then w :: xs else x :: replace_workshop xs w

/-- `RegistrationService.register_participant` (registration_service.py
lines 33-102): existence, email-format, signup-enabled, status and
capacity checks in source order, then insert the registration and bump the
workshop's `registration_count`. -/
def register_participant (store : RegStore) (wid pname pemail rid : String)
    (now : Nat) : RegStore × RegOutcome :=
  match store.workshops.find? (fun w => w.id == wid) with
  | none => (store, .workshopNotFound)
  | some w =>
    if validate_email_format pemail = false then (store, .invalidEmail)
    else if w.signup_enabled = false then (store, .signupsDisabled)
    else if w.status == "ongoing" then (store, .closedOngoing)
    else if w.status == "completed" then (store, .closedCompleted)
    else if w.capacity ≤ w.registration_count then (store, .full)
    else
      ({ workshops := replace_workshop store.workshops
           { w with registration_count := w.registration_count + 1 },
         registrations := store.registrations ++
           [{ id := rid, workshop_id := wid, participant_name := pname,
              participant_email := pemail, registered_at := now }] },
       .registered)

/-! ### Helper lemmas -/

/-- A conditional accumulation loop computes the sum over the filtered
list. -/
theorem foldl_if_filter_sum {α : Type} (p : α → Bool) (f : α → Nat) :
    ∀ (l : List α) (n : Nat),
      l.foldl (fun acc q => if p q then acc + f q else acc) n =
        n + ((l.filter p).map f).sum := by
  intro l
  induction l with
  | nil => intro n; simp
  | cons a t ih =>
      intro n
      by_cases h : p a = true
      · simp [List.foldl_cons, h, ih, Nat.add_assoc]
      · simp only [Bool.not_eq_true] at h
        simp [List.foldl_cons, h, ih]

/-- The two-question exam (29 + 71 = 100 possible points) used to exhibit
the float rounding of the grader. -/
def qsFloat : List QuestionRow := [⟨"q1", "e1", "A", 29⟩, ⟨"q2", "e1", "B", 71⟩]

/-- C1 counterexample: the claim states
`score = floor(earned / total_possible * 100)`.  On the exam with
questions worth 29 and 71 points and only the 29-point question answered
correctly, the source computes `int(29 / 100 * 100)` through doubles,
which is 28, while the claimed exact floor is 29; with
`passing_score = 29` this also flips `passed` (code: failed) and
`points_earned` (code: 0 instead of the exam's 50). -/
theorem exam_grading_float_counterexample :
    (gradeAttempt 29 50 qsFloat [("q1", " a ")]).score = 28 ∧
    ((qsFloat.filter (answerMatches [("q1", " a ")])).map QuestionRow.points).sum * 100 /
        ((qsFloat.map QuestionRow.points).sum) = 29 ∧
    (gradeAttempt 29 50 qsFloat [("q1", " a ")]).passed = false ∧
    (gradeAttempt 29 50 qsFloat [("q1", " a ")]).points_earned = 0 := by
  decide

/-- C1 amended: for every exam-attempt submission, the grader sums the
points of the questions whose trimmed, lowercased submitted answer equals
the trimmed, lowercased stored `correct_answer` into `earned`, and sets
`score = int(earned / total_possible * 100)` evaluated through
double-precision floats — which equals `floor(earned / total_possible *
100)` except where float rounding crosses an integer, e.g. 28 instead of
29 at `earned = 29, total = 100` — (0 when the exam has no question
points), `passed = (score >= passing_score)`, and `points_earned =
exam.points` if passed else 0. -/
theorem exam_grading_correct (passing_score max_points : Nat)
    (qs : List QuestionRow) (ans : List (String × String)) :
    (gradeAttempt passing_score max_points qs ans).score =
      (if (qs.map QuestionRow.points).sum = 0 then 0
       else pyScore (((qs.filter (answerMatches ans)).map QuestionRow.points).sum)
              ((qs.map QuestionRow.points).sum)) ∧
    (gradeAttempt passing_score max_points qs ans).passed =
      decide ((gradeAttempt passing_score max_points qs ans).score ≥ passing_score) ∧
    (gradeAttempt passing_score max_points qs ans).points_earned =
      (if (gradeAttempt passing_score max_points qs ans).passed = true
       then max_points else 0) := by
  have hearn : earnedPoints qs ans =
      ((qs.filter (answerMatches ans)).map QuestionRow.points).sum := by
    simpa using foldl_if_filter_sum (answerMatches ans) QuestionRow.points qs 0
  refine ⟨?_, by simp [gradeAttempt], by simp [gradeAttempt]⟩
  simp only [gradeAttempt, totalPossible, hearn]
  rcases Nat.eq_zero_or_pos ((qs.map QuestionRow.points).sum) with h0 | hpos
  · simp [h0]
  · simp [Nat.pos_iff_ne_zero.mp hpos, hpos]

/-- `find?` commutes with a rewriting pass that does not change the
searched-for key. -/
theorem find?_map_invariant {α : Type} (f : α → α) (p : α → Bool)
    (hp : ∀ x, p (f x) = p x) (l : List α) :
    (l.map f).find? p = (l.find? p).map f := by
  rw [List.find?_map]
  have : p ∘ f = p := funext hp
  rw [this]

/-- After any `add_lesson_points` call the (user, lesson) progress row
found by the store's lookup is marked complete. -/
theorem add_lesson_points_completes (db : DB) (u l : String) (p : Int)
    (nid : String) (t : Nat) :
    ∃ row, (add_lesson_points u l p nid t db).1.user_progress.find?
        (fun r => r.user_id == u && r.lesson_id == l) = some row ∧
      row.completed = true := by
  unfold add_lesson_points
  cases hfind : db.user_progress.find? (fun r => r.user_id == u && r.lesson_id == l) with
  | some ex =>
      by_cases hc : ex.completed = true
      · exact ⟨ex, by simp [hc, hfind], hc⟩
      · simp only [Bool.not_eq_true] at hc
        simp only [hc, Bool.false_eq_true, if_false]
        refine ⟨{ ex with completed := true, completed_at := some t, points_earned := p }, ?_, rfl⟩
        have hmap := find?_map_invariant
          (fun r : ProgressRow =>
            if r.id == ex.id then
              { r with completed := true, completed_at := some t, points_earned := p }
            else r)
          (fun r => r.user_id == u && r.lesson_id == l)
          (by intro x; by_cases h : x.id == ex.id <;> simp [h])
          db.user_progress
        simp only [hmap, hfind, Option.map_some]
        simp
  | none =>
      refine ⟨{ id := nid, user_id := u, lesson_id := l, completed := true,
                completed_at := some t, points_earned := p }, ?_, rfl⟩
      simp only [List.find?_append, hfind, Option.none_or]
      simp

/-- When the looked-up progress row is already complete,
`add_lesson_points` returns the state and current totals unchanged. -/
theorem add_lesson_points_of_completed (db : DB) (u l : String) (p : Int)
    (nid : String) (t : Nat) (row : ProgressRow)
    (hf : db.user_progress.find? (fun r => r.user_id == u && r.lesson_id == l) = some row)
    (hc : row.completed = true) :
    add_lesson_points u l p nid t db = (db, get_user_points u db) := by
  unfold add_lesson_points
  rw [hf]
  simp [hc]

/-- Every branch of `add_lesson_points` returns the totals of its
resulting state. -/
theorem add_lesson_points_snd (db : DB) (u l : String) (p : Int)
    (nid : String) (t : Nat) :
    (add_lesson_points u l p nid t db).2 =
      get_user_points u (add_lesson_points u l p nid t db).1 := by
  unfold add_lesson_points
  cases hfind : db.user_progress.find? (fun r => r.user_id == u && r.lesson_id == l) with
  | some ex => by_cases hc : ex.completed = true <;> simp [hc]
  | none => simp

/-- C2: lesson point awarding is idempotent.  If the (user, lesson)
progress row is already complete, `add_lesson_points` adds nothing and
returns the existing totals unchanged; consequently awarding twice yields
exactly the state and totals of awarding once. -/
theorem lesson_award_idempotent (db : DB) (u l : String) (p : Int)
    (id1 id2 : String) (t1 t2 : Nat) :
    (∀ row, db.user_progress.find?
        (fun r => r.user_id == u && r.lesson_id == l) = some row →
      row.completed = true →
      add_lesson_points u l p id2 t2 db = (db, get_user_points u db)) ∧
    add_lesson_points u l p id2 t2 (add_lesson_points u l p id1 t1 db).1 =
      ((add_lesson_points u l p id1 t1 db).1, (add_lesson_points u l p id1 t1 db).2) := by
  constructor
  · intro row hf hc
    exact add_lesson_points_of_completed db u l p id2 t2 row hf hc
  · obtain ⟨row, hf, hc⟩ := add_lesson_points_completes db u l p id1 t1
    rw [add_lesson_points_of_completed _ u l p id2 t2 row hf hc]
    rw [add_lesson_points_snd]

/-- The empty database state, used by concrete evaluations. -/
def emptyDB : DB :=
  { user_progress := [], user_points := [], exam_attempts := [],
    submissions := [], exams := [], exam_questions := [], history := [] }

/-- A database with one completed progress row for ("u1", "l1") and the
matching totals, used by concrete evaluations. -/
def dbLessonDone : DB :=
  { emptyDB with
    user_progress := [⟨"pr1", "u1", "l1", true, some 3, 10⟩],
    user_points := [⟨"u1", 10, 1, 0, 0, 0, 0, 3⟩] }

/-- Witness for C2 at a concrete state: a completed progress row for
("u1", "l1") makes a repeat award a no-op, and two awards from the empty
state agree with one. -/
theorem lesson_award_idempotent_witness :
    (add_lesson_points "u1" "l1" 10 "pr2" 9 dbLessonDone =
      (dbLessonDone, get_user_points "u1" dbLessonDone)) ∧
    add_lesson_points "u1" "l1" 10 "pr2" 9 (add_lesson_points "u1" "l1" 10 "pr1" 3 emptyDB).1 =
      ((add_lesson_points "u1" "l1" 10 "pr1" 3 emptyDB).1,
       (add_lesson_points "u1" "l1" 10 "pr1" 3 emptyDB).2) := by
  constructor
  · exact (lesson_award_idempotent dbLessonDone "u1" "l1" 10 "pr1" "pr2" 3 9).1
      ⟨"pr1", "u1", "l1", true, some 3, 10⟩ (by decide) (by decide)
  · exact (lesson_award_idempotent emptyDB "u1" "l1" 10 "pr1" "pr2" 3 9).2

/-! ### Characterisation of `update_rankings` -/

/-- The cumulative effect on one `user_points` row of running the
rank-shift updates for a list of ranking entries. -/
def updRowsF (l : List RankEntry) (r : UserPointsRow) : UserPointsRow :=
  match l.find? (fun e => e.user_id == r.user_id) with
  | some e => { r with previous_rank := r.current_rank, current_rank := e.new_rank }
  | none => r

def updRows (l : List RankEntry) (rows : List UserPointsRow) : List UserPointsRow :=
  rows.map (updRowsF l)

theorem shiftRank_user_id (e : RankEntry) (r : UserPointsRow) :
    (shiftRank e r).user_id = r.user_id := by
  unfold shiftRank; split <;> rfl

theorem updRowsF_user_id (l : List RankEntry) (r : UserPointsRow) :
    (updRowsF l r).user_id = r.user_id := by
  unfold updRowsF; split <;> rfl

/-- With nodup keys, `find?` by an element's own key returns that
element. -/
theorem find?_key_unique {α : Type} (key : α → String) (l : List α) (x : α)
    (hnd : (l.map key).Nodup) (hx : x ∈ l) :
    l.find? (fun y => key y == key x) = some x := by
  induction l with
  | nil => cases hx
  | cons a t ih =>
      rw [List.map_cons, List.nodup_cons] at hnd
      obtain ⟨hna, hndt⟩ := hnd
      rcases List.mem_cons.mp hx with rfl | hxt
      · rw [List.find?_cons_of_pos]
        simp
      · have hne : key a ≠ key x := fun h => hna (h ▸ List.mem_map_of_mem key hxt)
        rw [List.find?_cons_of_neg]
        · exact ih hndt hxt
        · simp [hne]

/-- A rank shift for user `e` does not change the stored rank read for a
different user. -/
theorem storedRank_map_shift (e : RankEntry) (rows : List UserPointsRow)
    (u : String) (hne : u ≠ e.user_id) :
    storedRank (rows.map (shiftRank e)) u = storedRank rows u := by
  unfold storedRank
  rw [find?_map_invariant (shiftRank e) (fun r => r.user_id == u)
    (fun x => by
      show ((shiftRank e x).user_id == u) = (x.user_id == u)
      rw [shiftRank_user_id]) rows]
  cases hf : rows.find? (fun r => r.user_id == u) with
  | none => rfl
  | some r =>
      have hr : r.user_id = u := by simpa using List.find?_some hf
      have hsr : shiftRank e r = r := by
        unfold shiftRank
        rw [if_neg (by simp [hr, hne])]
      simp [hsr]

/-- Composing one rank shift with the remaining updates equals the update
for the whole entry list, provided the shifted user occurs only once. -/
theorem updRowsF_cons_eq (e : RankEntry) (rest : List RankEntry)
    (r : UserPointsRow) (hnotin : e.user_id ∉ rest.map RankEntry.user_id) :
    updRowsF rest (shiftRank e r) = updRowsF (e :: rest) r := by
  have hsu : (shiftRank e r).user_id = r.user_id := shiftRank_user_id e r
  by_cases h : r.user_id = e.user_id
  · have hnone : rest.find? (fun x => x.user_id == (shiftRank e r).user_id) = none := by
      apply List.find?_eq_none.mpr
      intro x hx
      simp only [hsu, beq_iff_eq]
      intro hxe
      exact hnotin (by rw [← h, ← hxe]; exact List.mem_map_of_mem _ hx)
    have h1 : updRowsF rest (shiftRank e r) = shiftRank e r := by
      unfold updRowsF
      rw [hnone]
    have h2 : updRowsF (e :: rest) r =
        { r with previous_rank := r.current_rank, current_rank := e.new_rank } := by
      unfold updRowsF
      rw [List.find?_cons_of_pos _ (by simp [h])]
    rw [h1, h2]
    unfold shiftRank
    rw [if_pos (by simp [h])]
  · have h1 : shiftRank e r = r := by
      unfold shiftRank
      rw [if_neg (by simp [h])]
    rw [h1]
    unfold updRowsF
    rw [List.find?_cons_of_neg _ (by
      simp only [beq_iff_eq]
      exact fun hh => h hh.symm)]

/-- The loop of `update_rankings`, fully characterised: the final rows are
the rank-shifted rows, and the appended history is exactly one row per
ranking entry whose stored rank differed from the freshly computed one. -/
theorem processRankings_eq (l : List RankEntry) (rows : List UserPointsRow)
    (hist : List HistoryRow) (hnd : (l.map RankEntry.user_id).Nodup) :
    processRankings l rows hist =
      (updRows l rows,
       hist ++ (l.filter (fun e => storedRank rows e.user_id ≠ e.new_rank)).map
         (fun e => ({ user_id := e.user_id, rank_position := e.new_rank,
                      total_points := e.total_points } : HistoryRow))) := by
  induction l generalizing rows hist with
  | nil =>
      have hid : updRowsF ([] : List RankEntry) = id := funext fun r => rfl
      simp [processRankings, updRows, hid]
  | cons e rest ih =>
      rw [List.map_cons, List.nodup_cons] at hnd
      obtain ⟨hnotin, hnd'⟩ := hnd
      have hstep : processRankings (e :: rest) rows hist =
          processRankings rest (rows.map (shiftRank e))
            (if storedRank rows e.user_id ≠ e.new_rank then
               hist ++ [{ user_id := e.user_id, rank_position := e.new_rank,
                          total_points := e.total_points }]
             else hist) := rfl
      rw [hstep, ih _ _ hnd']
      have hrows : updRows rest (rows.map (shiftRank e)) = updRows (e :: rest) rows := by
        unfold updRows
        rw [List.map_map]
        exact List.map_congr_left (fun r _ => updRowsF_cons_eq e rest r hnotin)
      have hfc : rest.filter
            (fun x => storedRank (rows.map (shiftRank e)) x.user_id ≠ x.new_rank) =
          rest.filter (fun x => storedRank rows x.user_id ≠ x.new_rank) := by
        apply List.filter_congr
        intro x hx
        have hne : x.user_id ≠ e.user_id :=
          fun hh => hnotin (hh ▸ List.mem_map_of_mem _ hx)
        rw [storedRank_map_shift e rows x.user_id hne]
      rw [hrows, hfc]
      by_cases hcur : storedRank rows e.user_id ≠ e.new_rank
      · rw [if_pos hcur, List.filter_cons_of_pos (by simpa using hcur),
            List.map_cons, List.append_assoc]
        rfl
      · rw [if_neg hcur, List.filter_cons_of_neg (by simpa using hcur)]

/-- `List.enumFrom` followed by projecting the payload is a plain map. -/
theorem enumFrom_map_snd {α β : Type} (f : α → β) :
    ∀ (l : List α) (n : Nat), (l.enumFrom n).map (fun p => f p.2) = l.map f := by
  intro l
  induction l with
  | nil => intro n; rfl
  | cons a t ih => intro n; simp [List.enumFrom, ih]

/-- Distinct `user_points` keys give distinct ranking-entry keys. -/
theorem rankEntries_nodup (rows : List UserPointsRow)
    (h : (rows.map UserPointsRow.user_id).Nodup) :
    ((rankEntries rows).map RankEntry.user_id).Nodup := by
  unfold rankEntries
  rw [List.map_map]
  have : ((((rows.filter (fun r => 0 < r.total_points)).insertionSort
        rankOrder).enum).map (fun p => p.2.user_id)) =
      ((rows.filter (fun r => 0 < r.total_points)).insertionSort rankOrder).map
        UserPointsRow.user_id := by
    exact enumFrom_map_snd UserPointsRow.user_id _ 0
  rw [show ((fun e => e.user_id) ∘ fun p : Nat × UserPointsRow =>
      ({ user_id := p.2.user_id, total_points := p.2.total_points,
         new_rank := (p.1 : Int) + 1 } : RankEntry)) =
      (fun p : Nat × UserPointsRow => p.2.user_id) from rfl]
  rw [this]
  have hperm := (List.perm_insertionSort rankOrder
    (rows.filter (fun r => 0 < r.total_points))).map UserPointsRow.user_id
  rw [hperm.nodup_iff]
  exact ((List.filter_sublist rows).map UserPointsRow.user_id).nodup h

/-- C8: `update_rankings` appends a `leaderboard_history` row exactly for
the ranked users whose computed rank differs from their stored
`current_rank`, and for every ranked user the stored `current_rank` is
shifted into `previous_rank` while the computed rank becomes the new
`current_rank`. -/
theorem update_rankings_spec (db : DB)
    (hnd : (db.user_points.map UserPointsRow.user_id).Nodup) :
    (update_rankings db).history =
      db.history ++ ((rankEntries db.user_points).filter
        (fun e => storedRank db.user_points e.user_id ≠ e.new_rank)).map
        (fun e => ({ user_id := e.user_id, rank_position := e.new_rank,
                     total_points := e.total_points } : HistoryRow)) ∧
    ∀ e ∈ rankEntries db.user_points, ∀ r ∈ (update_rankings db).user_points,
      r.user_id = e.user_id →
        r.previous_rank = storedRank db.user_points e.user_id ∧
        r.current_rank = e.new_rank := by
  have hnd2 := rankEntries_nodup db.user_points hnd
  have hpe := processRankings_eq (rankEntries db.user_points)
    db.user_points db.history hnd2
  constructor
  · show (processRankings (rankEntries db.user_points)
      db.user_points db.history).2 = _
    rw [hpe]
  · intro e he r hr hru
    have hr2 : r ∈ updRows (rankEntries db.user_points) db.user_points := by
      have : (update_rankings db).user_points =
          (processRankings (rankEntries db.user_points)
            db.user_points db.history).1 := rfl
      rw [this, hpe] at hr
      exact hr
    obtain ⟨r0, hr0, rfl⟩ := List.mem_map.mp hr2
    have hr0u : r0.user_id = e.user_id := by
      rw [← updRowsF_user_id (rankEntries db.user_points) r0]
      exact hru
    have hfe : (rankEntries db.user_points).find?
        (fun x => x.user_id == r0.user_id) = some e := by
      rw [hr0u]
      exact find?_key_unique RankEntry.user_id _ e hnd2 he
    have hfr : db.user_points.find? (fun y => y.user_id == e.user_id) = some r0 := by
      rw [← hr0u]
      exact find?_key_unique UserPointsRow.user_id _ r0 hnd hr0
    have hst : storedRank db.user_points e.user_id = r0.current_rank := by
      unfold storedRank
      rw [hfr]
    unfold updRowsF
    rw [hfe]
    exact ⟨hst.symm, rfl⟩

/-- Witness for C8 on a concrete two-user state: the user whose rank
changes gets a history row and the rank shift; the user whose rank is
unchanged gets no history row. -/
theorem update_rankings_spec_witness :
    (let db : DB := { emptyDB with
        user_points := [⟨"u1", 30, 0, 0, 0, 2, 0, 5⟩, ⟨"u2", 40, 0, 0, 0, 1, 0, 4⟩],
        history := [⟨"u2", 1, 40⟩] }
     (update_rankings db).history =
        db.history ++ ((rankEntries db.user_points).filter
          (fun e => storedRank db.user_points e.user_id ≠ e.new_rank)).map
          (fun e => ({ user_id := e.user_id, rank_position := e.new_rank,
                       total_points := e.total_points } : HistoryRow)) ∧
      ∀ e ∈ rankEntries db.user_points, ∀ r ∈ (update_rankings db).user_points,
        r.user_id = e.user_id →
          r.previous_rank = storedRank db.user_points e.user_id ∧
          r.current_rank = e.new_rank) := by
  exact update_rankings_spec _ (by decide)

/-! ### Observables for the exam-award analysis -/

/-- The user's `total_points` as read back from the table (0 when the row
is missing). -/
def totalOf (u : String) (rows : List UserPointsRow) : Int :=
  match rows.find? (fun r => r.user_id == u) with
  | some r => r.total_points
  | none => 0

/-- The user's `exams_passed` counter (0 when the row is missing). -/
def examsPassedOf (u : String) (rows : List UserPointsRow) : Int :=
  match rows.find? (fun r => r.user_id == u) with
  | some r => r.exams_passed
  | none => 0

theorem updRowsF_total (l : List RankEntry) (r : UserPointsRow) :
    (updRowsF l r).total_points = r.total_points := by
  unfold updRowsF; split <;> rfl

theorem updRowsF_exams (l : List RankEntry) (r : UserPointsRow) :
    (updRowsF l r).exams_passed = r.exams_passed := by
  unfold updRowsF; split <;> rfl

theorem totalOf_updRows (u : String) (l : List RankEntry)
    (rows : List UserPointsRow) :
    totalOf u (updRows l rows) = totalOf u rows ∧
    examsPassedOf u (updRows l rows) = examsPassedOf u rows := by
  unfold totalOf examsPassedOf updRows
  rw [find?_map_invariant (updRowsF l) (fun r => r.user_id == u)
    (fun x => by
      show ((updRowsF l x).user_id == u) = (x.user_id == u)
      rw [updRowsF_user_id]) rows]
  cases hf : rows.find? (fun r => r.user_id == u) with
  | none => exact ⟨rfl, rfl⟩
  | some r => simp [updRowsF_total, updRowsF_exams]

/-- `update_rankings` rewrites only the rank columns: `total_points` and
`exams_passed` are unchanged for every user. -/
theorem update_rankings_preserves (db : DB) (u : String)
    (hnd : (db.user_points.map UserPointsRow.user_id).Nodup) :
    totalOf u (update_rankings db).user_points = totalOf u db.user_points ∧
    examsPassedOf u (update_rankings db).user_points = examsPassedOf u db.user_points := by
  have hpe := processRankings_eq (rankEntries db.user_points)
    db.user_points db.history (rankEntries_nodup db.user_points hnd)
  have hrows : (update_rankings db).user_points =
      updRows (rankEntries db.user_points) db.user_points := by
    show (processRankings (rankEntries db.user_points)
      db.user_points db.history).1 = _
    rw [hpe]
  rw [hrows]
  exact totalOf_updRows u _ db.user_points

/-- A list containing two distinct elements satisfying `p` has at least
two elements in its `p`-filter. -/
theorem two_le_length_filter {α : Type} (p : α → Bool) (l : List α) (x y : α)
    (hx : x ∈ l) (hy : y ∈ l) (hxy : x ≠ y) (hpx : p x = true) (hpy : p y = true) :
    2 ≤ (l.filter p).length := by
  induction l with
  | nil => cases hx
  | cons a t ih =>
      rcases List.mem_cons.mp hx with rfl | hxt
      · rcases List.mem_cons.mp hy with rfl | hyt
        · exact absurd rfl hxy
        · rw [List.filter_cons_of_pos hpx]
          have hmem : y ∈ t.filter p := List.mem_filter.mpr ⟨hyt, hpy⟩
          have h1 : 0 < (t.filter p).length :=
            List.length_pos.mpr (fun hh => by rw [hh] at hmem; cases hmem)
          simp only [List.length_cons]
          omega
      · rcases List.mem_cons.mp hy with rfl | hyt
        · rw [List.filter_cons_of_pos hpy]
          have hmem : x ∈ t.filter p := List.mem_filter.mpr ⟨hxt, hpx⟩
          have h1 : 0 < (t.filter p).length :=
            List.length_pos.mpr (fun hh => by rw [hh] at hmem; cases hmem)
          simp only [List.length_cons]
          omega
        · have hrec := ih hxt hyt
          by_cases hpa : p a = true
          · rw [List.filter_cons_of_pos hpa]
            simp only [List.length_cons]
            omega
          · rw [List.filter_cons_of_neg (by simpa using hpa)]
            exact hrec

/-- The exam upsert adds `p` to `total_points` and bumps `exams_passed`. -/
theorem upsertExamPoints_totals (u : String) (p : Int) (t : Nat)
    (rows : List UserPointsRow) :
    totalOf u (upsertExamPoints u p t rows) = totalOf u rows + p ∧
    examsPassedOf u (upsertExamPoints u p t rows) = examsPassedOf u rows + 1 := by
  unfold upsertExamPoints
  by_cases hany : rows.any (fun r => r.user_id == u) = true
  · rw [if_pos hany]
    unfold totalOf examsPassedOf
    rw [find?_map_invariant _ (fun r => r.user_id == u)
      (fun x => by by_cases h : (x.user_id == u) = true <;> simp [h]) rows]
    cases hf : rows.find? (fun r => r.user_id == u) with
    | none =>
        obtain ⟨z, hz, hpz⟩ := List.any_eq_true.mp hany
        exact absurd hpz (List.find?_eq_none.mp hf z hz)
    | some r =>
        have hr : r.user_id = u := by simpa using List.find?_some hf
        simp [hr]
  · rw [if_neg hany]
    have hnone : rows.find? (fun r => r.user_id == u) = none := by
      apply List.find?_eq_none.mpr
      intro x hx hpx
      exact hany (List.any_eq_true.mpr ⟨x, hx, hpx⟩)
    unfold totalOf examsPassedOf
    rw [List.find?_append, hnone]
    simp

/-- A database with one exam ("e1", passing score 50, 50 points), one
10-point question, and two unsubmitted attempts by "u1". -/
def dbTwoAttempts : DB :=
  { emptyDB with
    exam_attempts := [⟨"a1", "u1", "e1", [], 0, 0, false, none⟩,
                      ⟨"a2", "u1", "e1", [], 0, 0, false, none⟩],
    exams := [⟨"e1", "w1", 50, 50⟩],
    exam_questions := [⟨"q1", "e1", "A", 10⟩] }

/-- C3 counterexample: the claim asserts that the second passing attempt
is still rewarded.  On the concrete two-attempt state, the second
submission is graded passed with 50 points earned, yet the user's
`total_points` stays at the 50 awarded for the first pass — because the
second attempt is already recorded as passed when `add_exam_points` runs,
making its passed-count 2 > 1. -/
theorem exam_repass_counterexample :
    (submit_attempt_route "u1" "a2" [("q1", "a")] 20
        (submit_attempt_route "u1" "a1" [("q1", "a")] 10 dbTwoAttempts).1).2 =
      SubmitResp.ok ⟨"a2", "u1", "e1", [("q1", "a")], 100, 50, true, some 20⟩ ∧
    totalOf "u1" (submit_attempt_route "u1" "a2" [("q1", "a")] 20
        (submit_attempt_route "u1" "a1" [("q1", "a")] 10 dbTwoAttempts).1).1.user_points =
      totalOf "u1"
        (submit_attempt_route "u1" "a1" [("q1", "a")] 10 dbTwoAttempts).1.user_points ∧
    totalOf "u1"
        (submit_attempt_route "u1" "a1" [("q1", "a")] 10 dbTwoAttempts).1.user_points = 50 := by
  decide

/-- C3 amended: `add_exam_points` returns the totals unchanged exactly
when the count of recorded passed attempts for (user, exam) exceeds 1,
and otherwise adds the points and bumps `exams_passed`; and since the
submit route records the attempt as passed before awarding, a submission
by a user who already has a recorded passed attempt for the same exam
never changes `total_points` or `exams_passed` — the second passing
attempt is not rewarded. -/
theorem add_exam_points_dedup :
    (∀ (db : DB) (u e : String) (p : Int) (t : Nat),
        1 < passedCount u e db →
        add_exam_points u e p t db = (db, get_user_points u db)) ∧
    (∀ (db : DB) (u e : String) (p : Int) (t : Nat),
        passedCount u e db ≤ 1 →
        totalOf u (add_exam_points u e p t db).1.user_points =
            totalOf u db.user_points + p ∧
        examsPassedOf u (add_exam_points u e p t db).1.user_points =
            examsPassedOf u db.user_points + 1) ∧
    (∀ (db : DB) (uid aid : String) (ans : List (String × String)) (t : Nat)
        (att0 b : AttemptRow),
        db.exam_attempts.find? (fun a => a.id == aid) = some att0 →
        att0.user_id = uid →
        b ∈ db.exam_attempts → b.passed = true → b.user_id = uid →
        b.exam_id = att0.exam_id → b.id ≠ aid →
        (db.user_points.map UserPointsRow.user_id).Nodup →
        ans.isEmpty = false →
        totalOf uid (submit_attempt_route uid aid ans t db).1.user_points =
            totalOf uid db.user_points ∧
        examsPassedOf uid (submit_attempt_route uid aid ans t db).1.user_points =
            examsPassedOf uid db.user_points) := by
  refine ⟨?_, ?_, ?_⟩
  · intro db u e p t h
    unfold add_exam_points
    rw [if_pos h]
  · intro db u e p t h
    unfold add_exam_points
    rw [if_neg (by omega)]
    exact upsertExamPoints_totals u p t db.user_points
  · intro db uid aid ans t att0 b hfind hu hbmem hbp hbu hbe hbid hnd hne
    have haid : att0.id = aid := by simpa using List.find?_some hfind
    cases hex : db.exams.find? (fun ex => ex.id == att0.exam_id) with
    | none =>
        have hsub : submit_exam_attempt aid ans t db = none := by
          unfold submit_exam_attempt
          rw [hfind]
          simp only [hex]
        have hroute : submit_attempt_route uid aid ans t db = (db, SubmitResp.serverError) := by
          unfold submit_attempt_route
          rw [if_neg (by simp [hne]), hsub]
        rw [hroute]
        exact ⟨rfl, rfl⟩
    | some ex =>
        set g := gradeAttempt ex.passing_score ex.points
          (db.exam_questions.filter (fun q => q.exam_id == att0.exam_id)) ans with hg
        set f : AttemptRow → AttemptRow := fun a =>
          if a.id == aid then
            { a with answers := ans, score := g.score, points_earned := g.points_earned,
                     passed := g.passed, submitted_at := some t }
          else a with hfdef
        set att2 : AttemptRow :=
          { att0 with answers := ans, score := g.score, points_earned := g.points_earned,
                      passed := g.passed, submitted_at := some t } with hatt2
        set db1 : DB := { db with exam_attempts := db.exam_attempts.map f } with hdb1
        have hsub : submit_exam_attempt aid ans t db = some (db1, att2) := by
          unfold submit_exam_attempt
          rw [hfind]
          simp only [hex]
        have hroute : submit_attempt_route uid aid ans t db =
            (if att2.passed = true ∧ 0 < att2.points_earned then
               (update_rankings
                 (add_exam_points uid att2.exam_id (att2.points_earned : Int) t db1).1,
                SubmitResp.ok att2)
             else (db1, SubmitResp.ok att2)) := by
          unfold submit_attempt_route
          rw [if_neg (by simp [hne]), hsub]
        rw [hroute]
        by_cases hp : att2.passed = true ∧ 0 < att2.points_earned
        · rw [if_pos hp]
          have haid2 : (att0.id == aid) = true := by simp [haid]
          have hfatt0 : f att0 = att2 := by
            rw [hfdef, hatt2]
            simp [haid2]
          have hfb : f b = b := by
            have hb2 : (b.id == aid) = false := by simp [hbid]
            rw [hfdef]
            simp [hb2]
          have hx : att2 ∈ db1.exam_attempts := by
            show att2 ∈ db.exam_attempts.map f
            rw [← hfatt0]
            exact List.mem_map_of_mem f (List.mem_of_find?_eq_some hfind)
          have hy : b ∈ db1.exam_attempts := by
            show b ∈ db.exam_attempts.map f
            rw [← hfb]
            exact List.mem_map_of_mem f hbmem
          have hatt2id : att2.id = aid := by
            rw [hatt2]
            exact haid
          have hxy : att2 ≠ b := by
            intro hh
            exact hbid (hh ▸ hatt2id)
          have hpx : (fun a : AttemptRow =>
              a.user_id == uid && a.exam_id == att2.exam_id && a.passed) att2 = true := by
            simp only [Bool.and_eq_true, beq_iff_eq]
            exact ⟨⟨hu, trivial⟩, hp.1⟩
          have hpy : (fun a : AttemptRow =>
              a.user_id == uid && a.exam_id == att2.exam_id && a.passed) b = true := by
            simp only [Bool.and_eq_true, beq_iff_eq]
            exact ⟨⟨hbu, hbe⟩, hbp⟩
          have hcount : 1 < passedCount uid att2.exam_id db1 := by
            have h2 : 2 ≤ (db1.exam_attempts.filter (fun a : AttemptRow =>
                a.user_id == uid && a.exam_id == att2.exam_id && a.passed)).length :=
              two_le_length_filter _ db1.exam_attempts att2 b hx hy hxy hpx hpy
            unfold passedCount
            omega
          have hskip : add_exam_points uid att2.exam_id (att2.points_earned : Int) t db1 =
              (db1, get_user_points uid db1) := by
            unfold add_exam_points
            rw [if_pos hcount]
          rw [hskip]
          have hnd1 : (db1.user_points.map UserPointsRow.user_id).Nodup := hnd
          have hpres := update_rankings_preserves db1 uid hnd1
          constructor
          · show totalOf uid (update_rankings db1).user_points = totalOf uid db.user_points
            rw [hpres.1]
          · show examsPassedOf uid (update_rankings db1).user_points =
              examsPassedOf uid db.user_points
            rw [hpres.2]
        · rw [if_neg hp]
          exact ⟨rfl, rfl⟩

/-- Witness for the amended C3 at concrete inputs: with two recorded
passed attempts the award is skipped; with one it adds the points; and in
the route flow a user with a prior recorded pass gains nothing from a
second submission. -/
theorem add_exam_points_dedup_witness :
    (add_exam_points "u1" "e1" 50 9
        { dbTwoAttempts with
          exam_attempts := [⟨"a1", "u1", "e1", [("q1", "a")], 100, 50, true, some 1⟩,
                            ⟨"a2", "u1", "e1", [("q1", "a")], 100, 50, true, some 2⟩] } =
      ({ dbTwoAttempts with
         exam_attempts := [⟨"a1", "u1", "e1", [("q1", "a")], 100, 50, true, some 1⟩,
                           ⟨"a2", "u1", "e1", [("q1", "a")], 100, 50, true, some 2⟩] },
       none)) ∧
    (totalOf "u1" (add_exam_points "u1" "e1" 50 9 emptyDB).1.user_points =
        totalOf "u1" emptyDB.user_points + 50 ∧
     examsPassedOf "u1" (add_exam_points "u1" "e1" 50 9 emptyDB).1.user_points =
        examsPassedOf "u1" emptyDB.user_points + 1) ∧
    (totalOf "u1" (submit_attempt_route "u1" "a2" [("q1", "a")] 20
        { dbTwoAttempts with
          exam_attempts := [⟨"a1", "u1", "e1", [("q1", "a")], 100, 50, true, some 1⟩,
                            ⟨"a2", "u1", "e1", [], 0, 0, false, none⟩] }).1.user_points =
      totalOf "u1"
        ({ dbTwoAttempts with
           exam_attempts := [⟨"a1", "u1", "e1", [("q1", "a")], 100, 50, true, some 1⟩,
                             ⟨"a2", "u1", "e1", [], 0, 0, false, none⟩] } : DB).user_points ∧
     examsPassedOf "u1" (submit_attempt_route "u1" "a2" [("q1", "a")] 20
        { dbTwoAttempts with
          exam_attempts := [⟨"a1", "u1", "e1", [("q1", "a")], 100, 50, true, some 1⟩,
                            ⟨"a2", "u1", "e1", [], 0, 0, false, none⟩] }).1.user_points =
      examsPassedOf "u1"
        ({ dbTwoAttempts with
           exam_attempts := [⟨"a1", "u1", "e1", [("q1", "a")], 100, 50, true, some 1⟩,
                             ⟨"a2", "u1", "e1", [], 0, 0, false, none⟩] } : DB).user_points) := by
  refine ⟨?_, ?_, ?_⟩
  · exact add_exam_points_dedup.1 _ "u1" "e1" 50 9 (by decide)
  · exact add_exam_points_dedup.2.1 emptyDB "u1" "e1" 50 9 (by decide)
  · exact add_exam_points_dedup.2.2 _ "u1" "a2" [("q1", "a")] 20
      ⟨"a2", "u1", "e1", [], 0, 0, false, none⟩
      ⟨"a1", "u1", "e1", [("q1", "a")], 100, 50, true, some 1⟩
      (by decide) (by decide) (by decide) (by decide) (by decide) (by decide)
      (by decide) (by decide) (by decide)

/-! ### Participation claims -/

/-- C4: an owner-performed status update to joined/rejected stamps
`approved_at = now` and `approved_by = owner` on the participant's row,
while an update to waitlisted writes no approval stamp (the approval
columns of every row are left exactly as they were). -/
theorem participant_approval_stamp (uid wid pid st : String) (now : Nat)
    (ws : List WorkshopRow) (parts : List ParticipantRow)
    (w : WorkshopRow) (p0 : ParticipantRow)
    (hw : ws.find? (fun x => x.id == wid) = some w)
    (ho : w.owner_id = some uid)
    (hu : uid ≠ "")
    (hp : parts.find? (fun x => x.id == pid) = some p0)
    (hpw : p0.workshop_id = wid) :
    ((st = "joined" ∨ st = "rejected") →
      ∀ q ∈ (update_participant_status_route uid wid pid (some st) now ws parts).1,
        q.id = pid →
          q.status = st ∧ q.approved_at = some now ∧ q.approved_by = some uid) ∧
    (st = "waitlisted" →
      (update_participant_status_route uid wid pid (some st) now ws parts).1.map
          (fun q => (q.approved_at, q.approved_by)) =
        parts.map (fun q => (q.approved_at, q.approved_by))) := by
  have hbeqo : (w.owner_id == some uid) = true := by simp [ho]
  have hbeqw : (p0.workshop_id == wid) = true := by simp [hpw]
  have hroute : update_participant_status_route uid wid pid (some st) now ws parts =
      (if valid_statuses.contains st then
        (update_participant_status_store pid st
           (if st == "joined" || st == "rejected" then some uid else none) now parts,
         PatchResp.ok)
      else (parts, PatchResp.invalidStatus)) := by
    unfold update_participant_status_route
    rw [hw]
    simp only [hbeqo, Bool.not_true, Bool.false_eq_true, if_false, hp, hbeqw]
  have htruthy : truthyOpt (some uid) = true := by
    simp [truthyOpt, hu]
  constructor
  · intro hst q hq hqid
    have hcontains : valid_statuses.contains st = true := by
      rcases hst with rfl | rfl <;> decide
    have happ : (if st == "joined" || st == "rejected" then some uid else none) =
        some uid := by
      rcases hst with rfl | rfl <;> rfl
    have hcond : (truthyOpt (some uid) &&
        (st == "joined" || st == "rejected")) = true := by
      rcases hst with rfl | rfl <;> simp [htruthy]
    rw [hroute, if_pos hcontains] at hq
    simp only at hq
    rw [update_participant_status_store, happ, if_pos hcond] at hq
    obtain ⟨x, hxmem, hxq⟩ := List.mem_map.mp hq
    by_cases hid : (x.id == pid) = true
    · rw [if_pos hid] at hxq
      rw [← hxq]
      exact ⟨rfl, rfl, rfl⟩
    · rw [if_neg (by simpa using hid)] at hxq
      rw [← hxq] at hqid
      exact absurd (by simp [hqid] : (x.id == pid) = true) hid
  · intro hst
    subst hst
    rw [hroute, if_pos (by decide)]
    simp only
    rw [update_participant_status_store]
    rw [if_neg (by simp [truthyOpt])]
    rw [List.map_map]
    apply List.map_congr_left
    intro x _
    by_cases hid : x.id = pid <;> simp [hid]

/-- Witness for C4: the owner moving a pending participant to joined
stamps approval; moving another pending participant to waitlisted leaves
every approval column untouched. -/
theorem participant_approval_stamp_witness :
    (("joined" = "joined" ∨ "joined" = "rejected") →
      ∀ q ∈ (update_participant_status_route "o1" "w1" "p1" (some "joined") 7
          [⟨"w1", some "o1"⟩]
          [⟨"p1", "w1", "u1", "pending", 1, none, none⟩]).1,
        q.id = "p1" →
          q.status = "joined" ∧ q.approved_at = some 7 ∧ q.approved_by = some "o1") ∧
    ("waitlisted" = "waitlisted" →
      (update_participant_status_route "o1" "w1" "p1" (some "waitlisted") 7
          [⟨"w1", some "o1"⟩]
          [⟨"p1", "w1", "u1", "pending", 1, none, none⟩]).1.map
          (fun q => (q.approved_at, q.approved_by)) =
        [⟨"p1", "w1", "u1", "pending", 1, none, none⟩].map
          (fun q : ParticipantRow => (q.approved_at, q.approved_by))) := by
  constructor
  · exact (participant_approval_stamp "o1" "w1" "p1" "joined" 7
      [⟨"w1", some "o1"⟩] [⟨"p1", "w1", "u1", "pending", 1, none, none⟩]
      ⟨"w1", some "o1"⟩ ⟨"p1", "w1", "u1", "pending", 1, none, none⟩
      (by decide) (by decide) (by decide) (by decide) (by decide)).1
  · exact (participant_approval_stamp "o1" "w1" "p1" "waitlisted" 7
      [⟨"w1", some "o1"⟩] [⟨"p1", "w1", "u1", "pending", 1, none, none⟩]
      ⟨"w1", some "o1"⟩ ⟨"p1", "w1", "u1", "pending", 1, none, none⟩
      (by decide) (by decide) (by decide) (by decide) (by decide)).2

/-- C6 evaluated at the failing input: the PATCH route accepts
`'pending'` (it is in `valid_statuses`) and moves a `joined` participant
back to `pending`, contradicting both the route's own docstring
(`joined|rejected|waitlisted`) and the specified state machine. -/
theorem pending_transition_exposed :
    update_participant_status_route "o1" "w1" "p1" (some "pending") 5
        [⟨"w1", some "o1"⟩]
        [⟨"p1", "w1", "u1", "joined", 1, some 2, some "o1"⟩] =
      ([⟨"p1", "w1", "u1", "pending", 1, some 2, some "o1"⟩], PatchResp.ok) := by
  decide

/-- C5: at most one participation row can exist per (workshop, user).
The store-level insert (the uniqueness constraint) rejects a duplicate on
its own — independently of the route's read — and the join route turns
both the pre-read hit and the constraint violation into a 409 conflict
while a fresh join inserts exactly one pending row. -/
theorem join_duplicate_rejected (uid wid pid : String) (now : Nat)
    (ws : List WorkshopRow) (parts : List ParticipantRow) :
    ((∃ q ∈ parts, q.workshop_id = wid ∧ q.user_id = uid) →
      create_participant wid uid pid now parts = CreateResult.dup) ∧
    (∀ w, ws.find? (fun x => x.id == wid) = some w → ¬(w.owner_id = some uid) →
      ((∃ q ∈ parts, q.workshop_id = wid ∧ q.user_id = uid) →
        join_workshop_route uid wid pid now ws parts = (parts, JoinResp.alreadyJoined)) ∧
      ((¬ ∃ q ∈ parts, q.workshop_id = wid ∧ q.user_id = uid) →
        join_workshop_route uid wid pid now ws parts =
          (parts ++ [newParticipant pid wid uid now], JoinResp.created))) ∧
    (parts.countP (fun q => q.workshop_id == wid && q.user_id == uid) ≤ 1 →
      (join_workshop_route uid wid pid now ws parts).1.countP
        (fun q => q.workshop_id == wid && q.user_id == uid) ≤ 1) := by
  refine ⟨?_, ?_, ?_⟩
  · intro hex
    obtain ⟨q, hq, h1, h2⟩ := hex
    unfold create_participant
    rw [if_pos (List.any_eq_true.mpr ⟨q, hq, by simp [h1, h2]⟩)]
  · intro w hw ho
    have hbeq : (w.owner_id == some uid) = false := by
      simpa using ho
    constructor
    · intro hex
      obtain ⟨q, hq, h1, h2⟩ := hex
      unfold join_workshop_route
      rw [hw]
      simp only [hbeq, Bool.false_eq_true, if_false]
      cases hfind : parts.find? (fun q => q.workshop_id == wid && q.user_id == uid) with
      | none =>
          exact absurd (by simp [h1, h2] : ((fun q : ParticipantRow =>
            q.workshop_id == wid && q.user_id == uid) q) = true)
            (List.find?_eq_none.mp hfind q hq)
      | some _ => rfl
    · intro hnex
      have hfind : parts.find?
          (fun q => q.workshop_id == wid && q.user_id == uid) = none := by
        apply List.find?_eq_none.mpr
        intro x hx hpx
        apply hnex
        refine ⟨x, hx, ?_⟩
        simpa using hpx
      have hany : parts.any
          (fun q => q.workshop_id == wid && q.user_id == uid) = false := by
        rw [← Bool.not_eq_true]
        intro hany
        obtain ⟨x, hx, hpx⟩ := List.any_eq_true.mp hany
        exact (List.find?_eq_none.mp hfind x hx) hpx
      unfold join_workshop_route
      rw [hw]
      simp only [hbeq, Bool.false_eq_true, if_false, hfind]
      unfold create_participant
      rw [if_neg (by simp [hany])]
  · intro hcount
    unfold join_workshop_route
    cases hw : ws.find? (fun x => x.id == wid) with
    | none => exact hcount
    | some w =>
        by_cases howner : (w.owner_id == some uid) = true
        · simp only [howner, if_true]
          exact hcount
        · simp only [howner, Bool.false_eq_true, if_false]
          cases hfind : parts.find? (fun q => q.workshop_id == wid && q.user_id == uid) with
          | some _ => exact hcount
          | none =>
              have hzero : parts.countP
                  (fun q => q.workshop_id == wid && q.user_id == uid) = 0 :=
                List.countP_eq_zero.mpr (List.find?_eq_none.mp hfind)
              have hany : parts.any
                  (fun q => q.workshop_id == wid && q.user_id == uid) = false := by
                rw [← Bool.not_eq_true]
                intro h
                obtain ⟨x, hx, hpx⟩ := List.any_eq_true.mp h
                exact (List.find?_eq_none.mp hfind x hx) hpx
              have hcreate : create_participant wid uid pid now parts =
                  CreateResult.ok (parts ++ [newParticipant pid wid uid now])
                    (newParticipant pid wid uid now) := by
                unfold create_participant
                rw [if_neg (by simp [hany])]
              simp only [hcreate]
              rw [List.countP_append, hzero]
              by_cases hpn : ((newParticipant pid wid uid now).workshop_id == wid &&
                  (newParticipant pid wid uid now).user_id == uid) = true
              · simp [List.countP_cons, hpn]
              · simp [List.countP_cons, hpn]

/-- Witness for C5 on concrete states: the duplicate insert is rejected by
the constraint alone, the route returns the conflict on a duplicate join
and inserts exactly one row on a fresh join, and uniqueness is
preserved. -/
theorem join_duplicate_rejected_witness :
    (create_participant "w1" "u1" "p2" 9
        [⟨"p1", "w1", "u1", "pending", 1, none, none⟩] = CreateResult.dup) ∧
    (join_workshop_route "u1" "w1" "p2" 9 [⟨"w1", some "o1"⟩]
        [⟨"p1", "w1", "u1", "pending", 1, none, none⟩] =
      ([⟨"p1", "w1", "u1", "pending", 1, none, none⟩], JoinResp.alreadyJoined)) ∧
    (join_workshop_route "u1" "w1" "p2" 9 [⟨"w1", some "o1"⟩] [] =
      ([newParticipant "p2" "w1" "u1" 9], JoinResp.created)) ∧
    ((join_workshop_route "u1" "w1" "p2" 9 [⟨"w1", some "o1"⟩]
        [⟨"p1", "w1", "u1", "pending", 1, none, none⟩]).1.countP
        (fun q => q.workshop_id == "w1" && q.user_id == "u1") ≤ 1) := by
  have hex : ∃ q ∈ ([⟨"p1", "w1", "u1", "pending", 1, none, none⟩] :
      List ParticipantRow), q.workshop_id = "w1" ∧ q.user_id = "u1" :=
    ⟨⟨"p1", "w1", "u1", "pending", 1, none, none⟩, by simp, rfl, rfl⟩
  refine ⟨?_, ?_, ?_, ?_⟩
  · exact (join_duplicate_rejected "u1" "w1" "p2" 9 [⟨"w1", some "o1"⟩] _).1 hex
  · exact ((join_duplicate_rejected "u1" "w1" "p2" 9 [⟨"w1", some "o1"⟩] _).2.1
      ⟨"w1", some "o1"⟩ (by decide) (by decide)).1 hex
  · exact ((join_duplicate_rejected "u1" "w1" "p2" 9 [⟨"w1", some "o1"⟩] []).2.1
      ⟨"w1", some "o1"⟩ (by decide) (by decide)).2
      (by rintro ⟨q, hq, -⟩; exact absurd hq (List.not_mem_nil q))
  · exact (join_duplicate_rejected "u1" "w1" "p2" 9 [⟨"w1", some "o1"⟩] _).2.2
      (by decide)

/-! ### Registration-service claim (C7) -/

/-- C7: a workshop with `signup_enabled = false` never accepts a
registration (and the store is untouched), and — whenever the input
passes the earlier email-format validation — the reported error is the
signups-disabled one, before and regardless of the status or capacity
checks. -/
theorem registration_signup_disabled_priority (store : RegStore)
    (wid pname pemail rid : String) (now : Nat) (w : RegWorkshop)
    (hw : store.workshops.find? (fun x => x.id == wid) = some w)
    (hs : w.signup_enabled = false) :
    ((register_participant store wid pname pemail rid now).2 ≠ RegOutcome.registered ∧
     (register_participant store wid pname pemail rid now).1 = store) ∧
    (validate_email_format pemail = true →
      (register_participant store wid pname pemail rid now).2 =
        RegOutcome.signupsDisabled) := by
  unfold register_participant
  simp only [hw]
  by_cases he : validate_email_format pemail = true
  · rw [if_neg (by simp [he])]
    rw [if_pos hs]
    exact ⟨⟨by simp, rfl⟩, fun _ => rfl⟩
  · rw [if_pos (by simpa using he)]
    exact ⟨⟨by simp, rfl⟩, fun hcontra => absurd hcontra he⟩

/-- A registration store whose only workshop is signup-disabled, ongoing
and at zero capacity. -/
def regStoreDisabled : RegStore :=
  { workshops := [⟨"w1", false, "ongoing", 0, 0⟩], registrations := [] }

/-- Witness for C7: with a valid email, registering for the disabled,
ongoing, zero-capacity workshop reports exactly the signups-disabled
error and leaves the store unchanged. -/
theorem registration_signup_disabled_priority_witness :
    ((register_participant regStoreDisabled "w1" "n" "a@b.co" "r1" 4).2 ≠
        RegOutcome.registered ∧
     (register_participant regStoreDisabled "w1" "n" "a@b.co" "r1" 4).1 =
        regStoreDisabled) ∧
    (validate_email_format "a@b.co" = true →
      (register_participant regStoreDisabled "w1" "n" "a@b.co" "r1" 4).2 =
        RegOutcome.signupsDisabled) :=
  registration_signup_disabled_priority regStoreDisabled "w1" "n" "a@b.co" "r1" 4
    ⟨"w1", false, "ongoing", 0, 0⟩ (by decide) (by decide)

/-! ### Rank-change claim (C9) -/

/-- C9: a user with no `user_points` row at all gets
`{rank 0, change 0, direction "same"}` — with no previous-rank or
total-points fields — while a user whose row exists with
`previous_rank = 0` gets direction `"new"` with change 0. -/
theorem rank_change_missing_row (u : String) (db : DB) :
    (get_user_points u db = none →
      get_user_rank_change u db =
        { rank := 0, previous_rank := none, change := 0, direction := "same",
          total_points := none }) ∧
    (∀ p, get_user_points u db = some p → p.previous_rank = 0 →
      get_user_rank_change u db =
        { rank := p.current_rank, previous_rank := some 0, change := 0,
          direction := "new", total_points := some p.total_points }) := by
  constructor
  · intro h
    unfold get_user_rank_change
    rw [h]
  · intro p h hprev
    unfold get_user_rank_change
    rw [h]
    simp only [hprev, if_pos]

/-- Witness for C9: the empty state has no row for "u1" (direction
`"same"`), and a state whose row has `previous_rank = 0` yields
direction `"new"`. -/
theorem rank_change_missing_row_witness :
    (get_user_points "u1" emptyDB = none →
      get_user_rank_change "u1" emptyDB =
        { rank := 0, previous_rank := none, change := 0, direction := "same",
          total_points := none }) ∧
    get_user_rank_change "u1"
        { emptyDB with user_points := [⟨"u1", 10, 0, 0, 0, 3, 0, 1⟩] } =
      { rank := 3, previous_rank := some 0, change := 0, direction := "new",
        total_points := some 10 } := by
  constructor
  · exact (rank_change_missing_row "u1" emptyDB).1
  · exact (rank_change_missing_row "u1"
      { emptyDB with user_points := [⟨"u1", 10, 0, 0, 0, 3, 0, 1⟩] }).2
      ⟨"u1", 10, 0, 0, 0, 3, 0, 1⟩ (by decide) (by decide)

/-! ### Review frame claim (C10) -/

/-- C10: the review route touches `user_points` (and writes leaderboard
history) only for a passed review with positive points; a failed review,
or a passed review with non-positive `points_earned`, leaves the reviewed
user's points row and the history untouched, while a passed review with
positive points runs exactly `add_challenge_points` followed by
`update_rankings`. -/
theorem review_points_frame (reviewer sid status : String) (pe : Int)
    (fb : Option String) (now : Nat) (db : DB) :
    ((status = "failed" ∨ (status = "passed" ∧ pe ≤ 0)) →
      ((review_submission_route reviewer sid status pe fb now db).1.user_points =
          db.user_points ∧
       (review_submission_route reviewer sid status pe fb now db).1.history =
          db.history)) ∧
    (status = "passed" → 0 < pe →
      ∀ sub, (review_submission_store sid reviewer status pe fb now db).2 = some sub →
        (review_submission_route reviewer sid status pe fb now db).1 =
          update_rankings
            ((add_challenge_points sub.user_id sub.challenge_id pe now
              (review_submission_store sid reviewer status pe fb now db).1).1)) := by
  constructor
  · intro h
    unfold review_submission_route
    rcases h with rfl | ⟨rfl, hpe⟩
    · rw [if_pos (by decide)]
      rw [if_neg (by rintro ⟨h1, -⟩; exact absurd h1 (by decide))]
      exact ⟨rfl, rfl⟩
    · rw [if_pos (by decide)]
      rw [if_neg (by rintro ⟨-, h2⟩; omega)]
      exact ⟨rfl, rfl⟩
  · intro h1 h2 sub hsub
    subst h1
    have hcond : (("passed" : String) == "passed" || ("passed" : String) == "failed") =
        true := by decide
    simp only [review_submission_route, hcond, if_true]
    rw [if_pos ⟨trivial, h2⟩, hsub]

/-- A database holding one pending submission by "u1" for challenge
"c1". -/
def dbOneSubmission : DB :=
  { emptyDB with
    submissions := [⟨"s1", "u1", "c1", "pending", 0, none, none, none⟩] }

/-- Witness for C10: a failed review and a passed review with 0 points
leave `user_points` and history unchanged; a passed review with 20 points
equals the award-then-rerank composition. -/
theorem review_points_frame_witness :
    ((review_submission_route "o1" "s1" "failed" 20 none 6 dbOneSubmission).1.user_points =
        dbOneSubmission.user_points ∧
     (review_submission_route "o1" "s1" "failed" 20 none 6 dbOneSubmission).1.history =
        dbOneSubmission.history) ∧
    ((review_submission_route "o1" "s1" "passed" 0 none 6 dbOneSubmission).1.user_points =
        dbOneSubmission.user_points ∧
     (review_submission_route "o1" "s1" "passed" 0 none 6 dbOneSubmission).1.history =
        dbOneSubmission.history) ∧
    ((review_submission_route "o1" "s1" "passed" 20 none 6 dbOneSubmission).1 =
      update_rankings
        ((add_challenge_points "u1" "c1" 20 6
          (review_submission_store "s1" "o1" "passed" 20 none 6 dbOneSubmission).1).1)) := by
  refine ⟨?_, ?_, ?_⟩
  · exact (review_points_frame "o1" "s1" "failed" 20 none 6 dbOneSubmission).1
      (Or.inl rfl)
  · exact (review_points_frame "o1" "s1" "passed" 0 none 6 dbOneSubmission).1
      (Or.inr ⟨rfl, by omega⟩)
  · exact (review_points_frame "o1" "s1" "passed" 20 none 6 dbOneSubmission).2
      rfl (by omega) ⟨"s1", "u1", "c1", "passed", 20, none, some "o1", some 6⟩
      (by decide)

end KiroWorkshop
